import Mathlib

/-!
Verification of the Molty Royale bot decision core (src/bot.py).

Shallow embedding conventions:
* Python floats are modelled as exact rationals (ℚ).  Every arithmetic
  operation used by the decision core (+, -, *, /, max, min, comparisons)
  is exact on the inputs the claims quantify over.
* Python dicts used as keyed stores (RegionMemory internals) are modelled
  as insertion-ordered association lists, which matches CPython dict
  iteration order; the inventory dict of GameState is only ever read via
  inventory.get(name, 0), so it is modelled as a total function
  String → ℤ encoding that default.
* Python bool-returning methods become Bool-returning functions; methods
  returning an object or None become Option-returning functions.
* The one fallible arithmetic operation reachable from decide is the
  expression raw / (raw + 1) in DecisionEngine._win_prob, which raises
  ZeroDivisionError in Python when raw = -1.  The total model (win_prob,
  decide) uses rational division (junk value 0 at the singular point); an
  exception-aware model (win_probE, select_targetE, decideE) returns none
  exactly on the inputs where the Python code raises.
* decide in the source also writes gs.locked_target / gs.target_id; those
  writes never influence the value returned by the same call, so the
  embedding models decide as a pure function into BotAction.
-/

/- ── Python list/dict primitives ─────────────────────────────────── -/

/-- Python max(x, y) on numbers: the second argument only on a strictly
greater value.  Defined by a decidable comparison so that the kernel can
evaluate it (the Mathlib lattice max on ℚ does not reduce). -/
def pymax (a b : ℚ) : ℚ := if a < b then b else a

/-- Python min(x, y) on numbers. -/
def pymin (a b : ℚ) : ℚ := if b < a then b else a

/-- Python max(list, key=f): first element attaining the maximum
(CPython replaces the running best only on a strictly greater key);
none on an empty list (the callers guard emptiness). -/
def pyMaxBy {α : Type} (f : α → ℚ) : List α → Option α
  | [] => none
  | x :: xs => some (xs.foldl (fun b y => if f b < f y then y else b) x)

/-- Lookup with default, as Python dict.get(k, d) over an
insertion-ordered association list. -/
def getA {α : Type} (l : List (String × α)) (k : String) (d : α) : α :=
  match l with
  | [] => d
  | p :: rest => if p.1 = k then p.2 else getA rest k d

/-- Keyed store update, as Python d[k] = v: replaces the first binding of
the key in place, otherwise appends (insertion order preserved). -/
def setA {α : Type} (l : List (String × α)) (k : String) (v : α) : List (String × α) :=
  match l with
  | [] => [(k, v)]
  | p :: rest => if p.1 = k then (k, v) :: rest else p :: setA rest k v

/- ── Constants (src/bot.py lines 73-109) ─────────────────────────── -/

def WIN_PROB_ENGAGE : ℚ := 0.60
def ESCAPE_PROB_MAX : ℚ := 0.40
def WEAPON_UPGRADE_PCT : ℚ := 0.15
def SAFE_PATH_MIN : ℚ := 0.65
def ZONE_CHASE_MAX_SEC : ℚ := 3.0
def ZONE_ESCAPE_MIN : ℚ := 0.75
def HP_USE_HEAL : ℚ := 60
def HP_DISENGAGE : ℚ := 35
def HP_ZONE_ABORT : ℚ := 60
def MAX_HEAL_PER_TYPE : ℤ := 3
def RVS_BASE : ℚ := 1.0
def RVS_FLOOR : ℚ := 0.5
def RVS_HIGH_WEAPON : ℚ := 0.3
def RVS_KILL : ℚ := 0.2
def RVS_FAIL_EXPLORE : ℚ := -0.3
def RVS_ZONE_PRONE : ℚ := -0.5
def RVS_AMBUSH : ℚ := -0.2

/-- TIER_MULT.get(tier, 1.0) (src/bot.py lines 100-107). -/
def tier_mult (t : String) : ℚ :=
  if t = "legendary" then 3.0
  else if t = "epic" then 2.2
  else if t = "rare" then 1.5
  else if t = "uncommon" then 1.2
  else if t = "common" then 1.0
  else if t = "fists" then 0.3
  else 1.0

/-- Python str.lower() restricted to the ASCII tier labels the code
compares against (kernel-reducible, unlike String.toLower). -/
def pyLower (s : String) : String := ⟨s.data.map Char.toLower⟩

def HEAL_PRIORITY : List String :=
  ["mega_shield", "large_medkit", "medkit", "bandage", "small_heal"]

/- ── Data model (src/bot.py lines 116-204) ───────────────────────── -/

structure Weapon where
  name : String
  dps : ℚ := 0
  accuracy : ℚ := 1
  range : ℚ := 1
  tier : String := "common"
deriving DecidableEq

/-- Weapon.score property: dps * accuracy * range * tier multiplier,
with the multiplier looked up on the lowercased tier. -/
def Weapon.score (w : Weapon) : ℚ :=
  w.dps * w.accuracy * w.range * tier_mult (pyLower w.tier)

/-- Weapon.is_upgrade_over (src/bot.py lines 129-134). -/
def Weapon.is_upgrade_over (w : Weapon) : Option Weapon → Bool
  | none => true
  | some o =>
    if o.score ≤ 0 then decide (0 < w.score)
    else decide (WEAPON_UPGRADE_PCT ≤ (w.score - o.score) / o.score)

structure Enemy where
  id : String
  hp : ℚ := 100
  max_hp : ℚ := 100
  dps : ℚ := 10
  distance : ℚ := 50
  in_zone : Bool := false
deriving DecidableEq

/-- Enemy.hp_pct: (hp / max_hp) * 100 if max_hp else 0. -/
def Enemy.hp_pct (e : Enemy) : ℚ :=
  if e.max_hp = 0 then 0 else e.hp / e.max_hp * 100

structure Zone where
  distance : ℚ := 999
  shrink_timer : ℚ := 999
  direction : String := ""
  is_safe : Bool := true
  shrink_speed : ℚ := 1
deriving DecidableEq

/-- A nearby loot entry; the decision core only reads the fields
item (the item name, default empty) and id. -/
structure Loot where
  item : String := ""
  id : String := ""
deriving DecidableEq

structure GameState where
  hp : ℚ := 100
  max_hp : ℚ := 100
  balance : ℚ := 0
  kills : ℤ := 0
  weapon : Option Weapon := none
  inventory : String → ℤ := fun _ => 0
  zone : Zone := {}
  vision_modifier : ℚ := 1
  enemies : List Enemy := []
  loot_nearby : List Loot := []
  weapons_nearby : List Weapon := []
  current_region : String := ""
  players_alive : ℤ := 0
  tick : ℤ := 0

/-- GameState.hp_pct: (hp / max_hp) * 100 if max_hp else 0. -/
def GameState.hp_pct (gs : GameState) : ℚ :=
  if gs.max_hp = 0 then 0 else gs.hp / gs.max_hp * 100

/-- GameState.best_heal: the first HEAL_PRIORITY item with a positive
inventory count. -/
def GameState.best_heal (gs : GameState) : Option String :=
  HEAL_PRIORITY.find? (fun item => decide (0 < gs.inventory item))

/- ── RegionMemory (src/bot.py lines 210-254) ─────────────────────── -/

structure RegionMemory where
  rvs_data : List (String × ℚ)
  explores : List (String × ℤ)
  loot_found : List (String × ℤ)
deriving DecidableEq

def RegionMemory.fresh : RegionMemory := ⟨[], [], []⟩

/-- RegionMemory.rvs: stored score, defaulting to RVS_BASE = 1.0. -/
def RegionMemory.rvs (m : RegionMemory) (region : String) : ℚ :=
  getA m.rvs_data region RVS_BASE

/-- RegionMemory._adjust: clamp the adjusted score into [0.0, 2.0]. -/
def RegionMemory.adjust (m : RegionMemory) (region : String) (delta : ℚ) : RegionMemory :=
  { m with rvs_data := setA m.rvs_data region (pymax 0 (pymin 2 (m.rvs region + delta))) }

/-- RegionMemory.record_explore (src/bot.py lines 219-227): bump the
explore and cumulative-loot counters, then apply the fail penalty
whenever the new count is at least 2 with cumulative loot still 0. -/
def RegionMemory.record_explore (m : RegionMemory) (region : String) (loot : ℤ) :
    RegionMemory :=
  let m1 : RegionMemory :=
    { m with
      explores := setA m.explores region (getA m.explores region 0 + 1)
      loot_found := setA m.loot_found region (getA m.loot_found region 0 + loot) }
  if 2 ≤ getA m1.explores region 0 ∧ getA m1.loot_found region 0 = 0 then
    m1.adjust region RVS_FAIL_EXPLORE
  else m1

/-- RegionMemory.record_event (src/bot.py lines 229-238): fixed delta per
event kind, unknown kinds (delta 0) are no-ops. -/
def RegionMemory.record_event (m : RegionMemory) (region : String) (event : String) :
    RegionMemory :=
  let delta : ℚ :=
    if event = "high_tier_weapon" then RVS_HIGH_WEAPON
    else if event = "kill" then RVS_KILL
    else if event = "zone_prone" then RVS_ZONE_PRONE
    else if event = "ambush" then RVS_AMBUSH
    else 0
  if delta ≠ 0 then m.adjust region delta else m

/-- RegionMemory.is_worthwhile: score at least RVS_FLOOR = 0.5. -/
def RegionMemory.is_worthwhile (m : RegionMemory) (region : String) : Bool :=
  decide (RVS_FLOOR ≤ m.rvs region)

/-- RegionMemory.best_region (src/bot.py lines 243-246). -/
def RegionMemory.best_region (m : RegionMemory) (candidates : List String) :
    Option String :=
  let worth := candidates.filter (fun r => m.is_worthwhile r)
  let pool := if worth.isEmpty then candidates else worth
  pyMaxBy m.rvs pool

/- ── Actions (spec section 6 output interface) ───────────────────── -/

inductive BotAction where
  | escape_zone (direction : String) (priority : String) (use_heal : Option String)
  | use_item (item : String)
  | move_to_weapon (weapon_name : String)
  | attack (target_id : String)
  | move_to_region (region : String)
  | pick_loot (item_id : String)
  | patrol
deriving DecidableEq

/- ── DecisionEngine helpers (src/bot.py lines 338-483) ───────────── -/

/-- DecisionEngine._zone_critical (src/bot.py lines 340-347). -/
def zone_critical (gs : GameState) : Bool :=
  if !gs.zone.is_safe then true
  else if gs.zone.distance < 50 ∧ gs.zone.shrink_timer < 10 then true
  else if gs.hp_pct < HP_ZONE_ABORT ∧ gs.zone.distance < 80 then true
  else false

/-- DecisionEngine._zone_escape_action (src/bot.py lines 349-362);
the use_heal key is attached only when hp percent is below 30 and a heal
item is available. -/
def zone_escape_action (gs : GameState) : BotAction :=
  BotAction.escape_zone
    (if gs.zone.direction = "" then "safe_zone_center" else gs.zone.direction)
    "sprint"
    (if gs.hp_pct < 30 then gs.best_heal else none)

/-- DecisionEngine._best_nearby_weapon (src/bot.py lines 366-369). -/
def best_nearby_weapon (gs : GameState) : Option Weapon :=
  if gs.weapons_nearby.isEmpty then none
  else pyMaxBy Weapon.score gs.weapons_nearby

/-- DecisionEngine._safe_path_prob (src/bot.py lines 371-376). -/
def safe_path_prob (gs : GameState) : ℚ :=
  if 200 < gs.zone.distance then 0.90
  else if 100 < gs.zone.distance then 0.75
  else if 50 < gs.zone.distance then 0.55
  else 0.30

/-- DecisionEngine._weapon_in_zone_trajectory (src/bot.py lines 378-379). -/
def weapon_in_zone_trajectory (gs : GameState) : Bool :=
  decide (gs.zone.distance < 40 ∧ gs.zone.shrink_timer < 8)

/-- DecisionEngine._position_advantage: fixed 1.0 placeholder. -/
def position_advantage (_gs : GameState) (_e : Enemy) : ℚ := 1

/-- The ratio inside DecisionEngine._win_prob before the sigmoid clamp
(src/bot.py lines 411-429): own dps (5.0 when unarmed) times own hp,
position and vision advantage, over guarded enemy dps, hp and distance
risk.  The denominator is a product of three positive factors, so this
division itself is always well defined. -/
def win_raw (gs : GameState) (e : Enemy) : ℚ :=
  let my_dps := match gs.weapon with | some w => w.dps | none => 5
  let vis_adv :=
    if gs.vision_modifier < 0.5 ∧ 60 < e.distance then gs.vision_modifier * 0.6
    else gs.vision_modifier
  let e_dps := pymax e.dps 0.1
  let e_hp := pymax e.hp 0.1
  let dist_r := pymax 1 (e.distance / 50)
  (my_dps * gs.hp * position_advantage gs e * vis_adv) / (e_dps * e_hp * dist_r)

/-- DecisionEngine._win_prob (src/bot.py line 431): the sigmoid-like
clamp min(1, max(0, raw / (raw + 1))).  In Python this final division
raises ZeroDivisionError when raw = -1; see win_probE below. -/
def win_prob (gs : GameState) (e : Enemy) : ℚ :=
  pymin 1 (pymax 0 (win_raw gs e / (win_raw gs e + 1)))

/-- Exception-aware variant of win_prob: none exactly when the Python
code raises ZeroDivisionError (raw = -1). -/
def win_probE (gs : GameState) (e : Enemy) : Option ℚ :=
  if win_raw gs e + 1 = 0 then none else some (win_prob gs e)

/-- DecisionEngine._enemy_escape_prob (src/bot.py lines 437-440). -/
def enemy_escape_prob (e : Enemy) : ℚ :=
  if e.hp_pct < 25 then 0.10
  else if 100 < e.distance then 0.70
  else 0.35

/-- DecisionEngine._kill_time (src/bot.py lines 442-444). -/
def kill_time (gs : GameState) (e : Enemy) : ℚ :=
  let my_dps := match gs.weapon with | some w => w.dps | none => 5
  if 0 < my_dps then e.hp / my_dps else 999

/-- DecisionEngine._self_escape_prob (src/bot.py lines 446-450). -/
def self_escape_prob (gs : GameState) : ℚ :=
  if gs.zone.distance < 20 then 0.30
  else if gs.zone.distance < 60 then 0.60
  else 0.85

/-- The composite ranking score of _select_target (src/bot.py line 404):
win_prob * (1 - hp_pct / 100) / max(distance, 1). -/
def composite_score (gs : GameState) (e : Enemy) : ℚ :=
  win_prob gs e * (1 - e.hp_pct / 100) / pymax e.distance 1

/-- Eligibility filter of _select_target: a considered enemy is outside
the zone with win_prob at least 0.60 and escape_prob at most 0.40. -/
def eligible (gs : GameState) (e : Enemy) : Prop :=
  e.in_zone = false ∧ WIN_PROB_ENGAGE ≤ win_prob gs e ∧
    enemy_escape_prob e ≤ ESCAPE_PROB_MAX

instance (gs : GameState) (e : Enemy) : Decidable (eligible gs e) := by
  unfold eligible; infer_instance

/-- One iteration of the _select_target loop (src/bot.py lines 395-407):
skip in-zone enemies, skip ineligible ones, and replace the running best
only on a strictly greater composite score. -/
def select_step (gs : GameState) (acc : Option Enemy × ℚ) (e : Enemy) :
    Option Enemy × ℚ :=
  if e.in_zone then acc
  else if WIN_PROB_ENGAGE ≤ win_prob gs e ∧ enemy_escape_prob e ≤ ESCAPE_PROB_MAX then
    (if acc.2 < composite_score gs e then (some e, composite_score gs e) else acc)
  else acc

/-- DecisionEngine._select_target (src/bot.py lines 383-409): fold the
loop body over the enemies, starting from best = None, best_score = 0. -/
def select_target (gs : GameState) : Option Enemy :=
  (gs.enemies.foldl (select_step gs) (none, 0)).1

/-- Exception-aware _select_target loop: none when a considered enemy
makes _win_prob raise. -/
def select_foldE (gs : GameState) : List Enemy → (Option Enemy × ℚ) →
    Option (Option Enemy × ℚ)
  | [], acc => some acc
  | e :: rest, acc =>
    if e.in_zone then select_foldE gs rest acc
    else if win_raw gs e + 1 = 0 then none
    else select_foldE gs rest (select_step gs acc e)

/-- Exception-aware _select_target: none when the Python call raises. -/
def select_targetE (gs : GameState) : Option (Option Enemy) :=
  (select_foldE gs gs.enemies (none, 0)).map Prod.fst

/-- DecisionEngine._heal_action (src/bot.py lines 454-457); only reached
when best_heal is available. -/
def heal_action (gs : GameState) : BotAction :=
  BotAction.use_item (gs.best_heal.getD "")

/-- DecisionEngine._choose_region (src/bot.py lines 461-465): the known
regions are the keys of the score store, falling back to the five
default labels when none are known. -/
def choose_region (m : RegionMemory) (_gs : GameState) : Option String :=
  let known := m.rvs_data.map Prod.fst
  let known2 := if known.isEmpty then ["central", "north", "south", "east", "west"]
    else known
  m.best_region known2

/-- DecisionEngine._pick_loot (src/bot.py lines 469-483): on low health
prefer the first uncapped heal-class entry, otherwise the first uncapped
entry of any kind. -/
def pick_loot (gs : GameState) : Option Loot :=
  if gs.loot_nearby.isEmpty then none
  else
    match (if gs.hp_pct < HP_USE_HEAL then
        gs.loot_nearby.find? (fun l =>
          decide (l.item ∈ HEAL_PRIORITY) && decide (gs.inventory l.item < MAX_HEAL_PER_TYPE))
      else none) with
    | some l => some l
    | none => gs.loot_nearby.find? (fun l => decide (gs.inventory l.item < MAX_HEAL_PER_TYPE))

/- ── DecisionEngine.decide (src/bot.py lines 280-336) ────────────── -/

/-- Steps 7 and 8 of decide: pick up loot, else patrol. -/
def decide_loot (gs : GameState) : BotAction :=
  match pick_loot gs with
  | some l => BotAction.pick_loot l.id
  | none => BotAction.patrol

/-- Step 6 of decide: move to the chosen region when it is a non-empty
label different from the current region, else fall through. -/
def decide_explore (m : RegionMemory) (gs : GameState) : BotAction :=
  match choose_region m gs with
  | some r => if r ≠ "" ∧ r ≠ gs.current_region then BotAction.move_to_region r
      else decide_loot gs
  | none => decide_loot gs

/-- Step 5 of decide given the selected target: an in-zone target is
chased only when kill time and self escape probability permit, an
out-of-zone target is attacked unconditionally, no target falls through
to exploration. -/
def decide_combat (m : RegionMemory) (gs : GameState) : Option Enemy → BotAction
  | some t =>
    if t.in_zone then
      (if kill_time gs t ≤ ZONE_CHASE_MAX_SEC ∧ ZONE_ESCAPE_MIN ≤ self_escape_prob gs
        then BotAction.attack t.id
        else decide_explore m gs)
    else BotAction.attack t.id
  | none => decide_explore m gs

/-- Steps 4 to 8 of decide. -/
def decide_rest (m : RegionMemory) (gs : GameState) : BotAction :=
  if gs.hp_pct < HP_USE_HEAL ∧ gs.best_heal.isSome then heal_action gs
  else decide_combat m gs (select_target gs)

/-- DecisionEngine.decide (src/bot.py lines 280-336), total model. -/
def DecisionEngine.decide (m : RegionMemory) (gs : GameState) : BotAction :=
  if zone_critical gs then zone_escape_action gs
  else if gs.hp_pct < HP_DISENGAGE ∧ gs.best_heal.isSome then heal_action gs
  else
    match best_nearby_weapon gs with
    | some bw =>
      if bw.is_upgrade_over gs.weapon = true ∧ SAFE_PATH_MIN ≤ safe_path_prob gs ∧
          weapon_in_zone_trajectory gs = false then
        BotAction.move_to_weapon bw.name
      else decide_rest m gs
    | none => decide_rest m gs

/-- Steps 4 to 8 of decide, exception-aware. -/
def decide_restE (m : RegionMemory) (gs : GameState) : Option BotAction :=
  if gs.hp_pct < HP_USE_HEAL ∧ gs.best_heal.isSome then some (heal_action gs)
  else (select_targetE gs).map (decide_combat m gs)

/-- DecisionEngine.decide, exception-aware model: none exactly when the
Python call raises ZeroDivisionError inside target selection. -/
def decideE (m : RegionMemory) (gs : GameState) : Option BotAction :=
  if zone_critical gs then some (zone_escape_action gs)
  else if gs.hp_pct < HP_DISENGAGE ∧ gs.best_heal.isSome then some (heal_action gs)
  else
    match best_nearby_weapon gs with
    | some bw =>
      if bw.is_upgrade_over gs.weapon = true ∧ SAFE_PATH_MIN ≤ safe_path_prob gs ∧
          weapon_in_zone_trajectory gs = false then
        some (BotAction.move_to_weapon bw.name)
      else decide_restE m gs
    | none => decide_restE m gs

/- ── Operation sequences over RegionMemory (for the invariant) ───── -/

/-- One external callback into RegionMemory: an explore outcome with an
arbitrary loot count, or an arbitrary event kind. -/
inductive MemOp where
  | explore (region : String) (loot : ℤ)
  | event (region : String) (kind : String)

/-- Apply one callback. -/
def MemOp.apply (m : RegionMemory) : MemOp → RegionMemory
  | .explore r n => m.record_explore r n
  | .event r k => m.record_event r k

/-- Run a finite sequence of callbacks. -/
def run_ops (m : RegionMemory) (ops : List MemOp) : RegionMemory :=
  ops.foldl MemOp.apply m

/- ── Helper lemmas ───────────────────────────────────────────────── -/

theorem getA_setA_same {α : Type} (l : List (String × α)) (k : String) (v : α) (d : α) :
    getA (setA l k v) k d = v := by
  induction l with
  | nil => simp [setA, getA]
  | cons p rest ih =>
    by_cases h : p.1 = k
    · simp [setA, getA, h]
    · simp [setA, getA, h, ih]

theorem getA_setA_ne {α : Type} (l : List (String × α)) (k k' : String) (v : α) (d : α)
    (h : k' ≠ k) : getA (setA l k v) k' d = getA l k' d := by
  have hk : ¬(k = k') := fun hh => h hh.symm
  induction l with
  | nil => simp [setA, getA, hk]
  | cons p rest ih =>
    by_cases hp : p.1 = k
    · simp [setA, getA, hp, hk]
    · simp [setA, getA, hp, ih]

theorem getA_default {α : Type} (l : List (String × α)) (k : String) (d : α)
    (h : ∀ p ∈ l, p.1 ≠ k) : getA l k d = d := by
  induction l with
  | nil => rfl
  | cons p rest ih =>
    have hp : ¬p.1 = k := h p (List.mem_cons_self p rest)
    simp only [getA, if_neg hp]
    exact ih fun q hq => h q (List.mem_cons_of_mem p hq)

theorem clamp_bounds (x : ℚ) : 0 ≤ pymax 0 (pymin 2 x) ∧ pymax 0 (pymin 2 x) ≤ 2 := by
  unfold pymax pymin
  split_ifs <;> constructor <;> linarith

/-- Characterization of pyMaxBy via the underlying foldl: the result is
the start or a list element, it dominates the start and every element,
and when it is a list element it is the first one strictly above
everything before it. -/
theorem pyfold_spec {α : Type} (f : α → ℚ) :
    ∀ (xs : List α) (b : α),
      ∃ r, xs.foldl (fun b y => if f b < f y then y else b) b = r ∧
        ((r = b ∧ ∀ y ∈ xs, f y ≤ f b) ∨
         (∃ l1 l2, xs = l1 ++ r :: l2 ∧ f b < f r ∧
           (∀ y ∈ l1, f y < f r) ∧ (∀ y ∈ l2, f y ≤ f r)))
  | [], b => ⟨b, rfl, Or.inl ⟨rfl, by simp⟩⟩
  | x :: xs, b => by
    rw [List.foldl_cons]
    by_cases h : f b < f x
    · rw [if_pos h]
      obtain ⟨r, hr, hcase⟩ := pyfold_spec f xs x
      refine ⟨r, hr, Or.inr ?_⟩
      rcases hcase with ⟨rfl, hall⟩ | ⟨l1, l2, heq, hlt, h1, h2⟩
      · exact ⟨[], xs, rfl, h, by simp, hall⟩
      · refine ⟨x :: l1, l2, by simp [heq], lt_trans h hlt, ?_, h2⟩
        intro y hy
        rcases List.mem_cons.mp hy with rfl | hy
        · exact hlt
        · exact h1 y hy
    · rw [if_neg h]
      obtain ⟨r, hr, hcase⟩ := pyfold_spec f xs b
      refine ⟨r, hr, ?_⟩
      rcases hcase with ⟨rfl, hall⟩ | ⟨l1, l2, heq, hlt, h1, h2⟩
      · refine Or.inl ⟨rfl, ?_⟩
        intro y hy
        rcases List.mem_cons.mp hy with rfl | hy
        · exact not_lt.mp h
        · exact hall y hy
      · refine Or.inr ⟨x :: l1, l2, by simp [heq], hlt, ?_, h2⟩
        intro y hy
        rcases List.mem_cons.mp hy with rfl | hy
        · exact lt_of_le_of_lt (not_lt.mp h) hlt
        · exact h1 y hy

/-- pyMaxBy on a non-empty list returns the first element attaining the
maximum of f: everything before it is strictly below, everything after
it is at most it. -/
theorem pyMaxBy_spec {α : Type} (f : α → ℚ) (l : List α) (hl : l ≠ []) :
    ∃ x l1 l2, pyMaxBy f l = some x ∧ l = l1 ++ x :: l2 ∧
      (∀ y ∈ l1, f y < f x) ∧ (∀ y ∈ l2, f y ≤ f x) := by
  match l, hl with
  | a :: xs, _ =>
    obtain ⟨r, hr, hcase⟩ := pyfold_spec f xs a
    rcases hcase with ⟨rfl, hall⟩ | ⟨l1, l2, heq, hlt, h1, h2⟩
    · exact ⟨r, [], xs, by simp [pyMaxBy, hr], rfl, by simp, hall⟩
    · refine ⟨r, a :: l1, l2, by simp [pyMaxBy, hr], by simp [heq], ?_, h2⟩
      intro y hy
      rcases List.mem_cons.mp hy with rfl | hy
      · exact hlt
      · exact h1 y hy

/- ── RegionMemory score invariant ────────────────────────────────── -/

theorem rvs_adjust (m : RegionMemory) (r : String) (delta : ℚ) (r' : String) :
    (m.adjust r delta).rvs r' =
      if r' = r then pymax 0 (pymin 2 (m.rvs r + delta)) else m.rvs r' := by
  unfold RegionMemory.adjust RegionMemory.rvs
  by_cases h : r' = r
  · subst h; simp [getA_setA_same]
  · simp [h, getA_setA_ne _ _ _ _ _ h]

/-- All stored scores lie in the closed interval [0, 2], and unseen
regions read the base value, itself in range. -/
def InBounds (m : RegionMemory) : Prop := ∀ r, 0 ≤ m.rvs r ∧ m.rvs r ≤ 2

theorem InBounds.adjust {m : RegionMemory} (h : InBounds m) (r : String) (delta : ℚ) :
    InBounds (m.adjust r delta) := by
  intro r'
  rw [rvs_adjust]
  split
  · exact clamp_bounds _
  · exact h r'

theorem record_explore_rvs_data (m : RegionMemory) (r : String) (n : ℤ) :
    (m.record_explore r n).rvs_data = m.rvs_data ∨
    ∃ m' : RegionMemory, m'.rvs_data = m.rvs_data ∧
      m.record_explore r n = m'.adjust r RVS_FAIL_EXPLORE := by
  unfold RegionMemory.record_explore
  dsimp only
  split
  · refine Or.inr ⟨_, ?_, rfl⟩
    rfl
  · exact Or.inl rfl

theorem InBounds.record_explore {m : RegionMemory} (h : InBounds m) (r : String) (n : ℤ) :
    InBounds (m.record_explore r n) := by
  have hsame : ∀ m' : RegionMemory, m'.rvs_data = m.rvs_data → InBounds m' := by
    intro m' hd r'
    have : m'.rvs r' = m.rvs r' := by unfold RegionMemory.rvs; rw [hd]
    rw [this]; exact h r'
  rcases record_explore_rvs_data m r n with hd | ⟨m', hd, heq⟩
  · exact hsame _ hd
  · rw [heq]; exact (hsame m' hd).adjust r RVS_FAIL_EXPLORE

theorem InBounds.adjust_or {m : RegionMemory} (h : InBounds m) (r : String) (d : ℚ) :
    InBounds (if d ≠ 0 then m.adjust r d else m) := by
  split
  · exact h.adjust r d
  · exact h

theorem InBounds.record_event {m : RegionMemory} (h : InBounds m) (r : String) (k : String) :
    InBounds (m.record_event r k) := by
  unfold RegionMemory.record_event
  exact h.adjust_or r _

theorem run_ops_InBounds {m : RegionMemory} (h : InBounds m) (ops : List MemOp) :
    InBounds (run_ops m ops) := by
  induction ops generalizing m with
  | nil => exact h
  | cons op rest ih =>
    show InBounds (run_ops (MemOp.apply m op) rest)
    apply ih
    cases op with
    | explore r n => exact h.record_explore r n
    | event r k => exact h.record_event r k

theorem fresh_InBounds : InBounds RegionMemory.fresh := by
  intro r
  show (0:ℚ) ≤ RVS_BASE ∧ RVS_BASE ≤ 2
  norm_num [RVS_BASE]

/-- C4: starting from a fresh RegionMemory, after every finite sequence
of record_explore and record_event calls with arbitrary arguments, every
region score lies in [0.0, 2.0]; a region never touched by an adjustment
still reads the base value 1.0. -/
theorem region_scores_bounded (ops : List MemOp) (r : String) :
    (0 ≤ (run_ops RegionMemory.fresh ops).rvs r ∧ (run_ops RegionMemory.fresh ops).rvs r ≤ 2) ∧
    ((∀ p ∈ (run_ops RegionMemory.fresh ops).rvs_data, p.1 ≠ r) →
      (run_ops RegionMemory.fresh ops).rvs r = 1) := by
  constructor
  · exact run_ops_InBounds fresh_InBounds ops r
  · intro h
    unfold RegionMemory.rvs
    rw [getA_default _ _ _ h]
    norm_num [RVS_BASE]

unseal Rat.inv Rat.mul Rat.add Rat.sub Rat.ofScientific in
/-- Witness for C4 at the one-call sequence explore("a", 1) and the
unseen region "b". -/
theorem region_scores_bounded_w :
    0 ≤ (run_ops RegionMemory.fresh [MemOp.explore "a" 1]).rvs "b" ∧
    (run_ops RegionMemory.fresh [MemOp.explore "a" 1]).rvs "b" ≤ 2 ∧
    (run_ops RegionMemory.fresh [MemOp.explore "a" 1]).rvs "b" = 1 :=
  ⟨(region_scores_bounded [MemOp.explore "a" 1] "b").1.1,
   (region_scores_bounded [MemOp.explore "a" 1] "b").1.2,
   (region_scores_bounded [MemOp.explore "a" 1] "b").2 (by decide)⟩

/- ── C2: the failed-explore penalty ──────────────────────────────── -/

unseal Rat.inv Rat.mul Rat.add Rat.sub Rat.ofScientific in
/-- C2 counterexample: on a fresh memory, two consecutive zero-loot
explores of region "r" leave the score at 0.7 (one penalty), but a third
zero-loot explore applies the -0.3 penalty again, moving the score to
0.4 instead of leaving it at 0.7 as the claim requires. -/
theorem explore_penalty_retriggers_cx :
    ((RegionMemory.fresh.record_explore "r" 0).record_explore "r" 0).rvs "r" = 0.7 ∧
    (((RegionMemory.fresh.record_explore "r" 0).record_explore "r" 0).record_explore "r" 0).rvs
      "r" = 0.4 ∧
    (((RegionMemory.fresh.record_explore "r" 0).record_explore "r" 0).record_explore "r" 0).rvs
        "r" ≠
      ((RegionMemory.fresh.record_explore "r" 0).record_explore "r" 0).rvs "r" := by
  refine ⟨by decide, by decide, by decide⟩

/-- C2 (amended): a pair of consecutive record_explore(r, 0) calls on a
fresh memory applies the -0.3 penalty exactly once (score 1.0 to 0.7),
but the penalty is not tracked per threshold crossing: every further
zero-loot explore of a region whose recorded loot total is 0 and whose
explore count is already at least 1 applies the clamped -0.3 penalty
again. -/
theorem explore_penalty_amended (m : RegionMemory) (r : String)
    (h1 : 1 ≤ getA m.explores r 0) (h2 : getA m.loot_found r 0 = 0) :
    (m.record_explore r 0).rvs r = pymax 0 (pymin 2 (m.rvs r + RVS_FAIL_EXPLORE)) ∧
    ((RegionMemory.fresh.record_explore r 0).record_explore r 0).rvs r = 0.7 := by
  constructor
  · unfold RegionMemory.record_explore
    dsimp only
    rw [if_pos ⟨by rw [getA_setA_same]; omega, by rw [getA_setA_same, h2, add_zero]⟩]
    unfold RegionMemory.adjust RegionMemory.rvs
    dsimp only
    rw [getA_setA_same]
  · have step1 : RegionMemory.fresh.record_explore r 0 =
        ⟨[], [(r, 1)], [(r, 0)]⟩ := by
      unfold RegionMemory.record_explore RegionMemory.fresh
      dsimp only
      rw [if_neg]
      · rfl
      · simp [getA, setA]
    rw [step1]
    unfold RegionMemory.record_explore
    dsimp only
    rw [if_pos ⟨by rw [getA_setA_same]; simp [getA, setA], by rw [getA_setA_same]; simp [getA, setA]⟩]
    unfold RegionMemory.adjust RegionMemory.rvs
    dsimp only
    rw [getA_setA_same]
    show pymax 0 (pymin 2 (getA [] r RVS_BASE + RVS_FAIL_EXPLORE)) = 0.7
    norm_num [getA, RVS_BASE, RVS_FAIL_EXPLORE, pymax, pymin]

unseal Rat.inv Rat.mul Rat.add Rat.sub Rat.ofScientific in
/-- Witness for C2 at a memory with one prior zero-loot explore of "a":
the next zero-loot explore applies the clamped penalty. -/
theorem explore_penalty_amended_w :
    ((RegionMemory.fresh.record_explore "a" 0).record_explore "a" 0).rvs "a" =
      pymax 0 (pymin 2 ((RegionMemory.fresh.record_explore "a" 0).rvs "a" + RVS_FAIL_EXPLORE)) ∧
    ((RegionMemory.fresh.record_explore "a" 0).record_explore "a" 0).rvs "a" = 0.7 :=
  explore_penalty_amended (RegionMemory.fresh.record_explore "a" 0) "a" (by decide) (by decide)

/- ── C1: zone escape dominates ───────────────────────────────────── -/

/-- C1: whenever the zone is unsafe, or distance < 50 with shrink timer
< 10, or hp percent < 60 with distance < 80, decide returns an
escape_zone action, before any heal, weapon, combat, explore, loot or
patrol rule. -/
theorem zone_escape_dominates (m : RegionMemory) (gs : GameState)
    (h : gs.zone.is_safe = false ∨
      (gs.zone.distance < 50 ∧ gs.zone.shrink_timer < 10) ∨
      (gs.hp_pct < 60 ∧ gs.zone.distance < 80)) :
    ∃ d p u, DecisionEngine.decide m gs = BotAction.escape_zone d p u := by
  have hz : zone_critical gs = true := by
    unfold zone_critical
    rcases h with h | h | h
    · simp [h]
    · by_cases hs : gs.zone.is_safe <;> simp [hs, h]
    · by_cases hs : gs.zone.is_safe <;>
        by_cases h2 : gs.zone.distance < 50 ∧ gs.zone.shrink_timer < 10 <;>
        simp [hs, h2, h, HP_ZONE_ABORT]
  refine ⟨if gs.zone.direction = "" then "safe_zone_center" else gs.zone.direction, "sprint",
    if gs.hp_pct < 30 then gs.best_heal else none, ?_⟩
  unfold DecisionEngine.decide
  rw [if_pos hz]
  rfl

/-- Witness for C1: an unsafe zone forces escape_zone on an otherwise
default snapshot. -/
theorem zone_escape_dominates_w :
    ∃ d p u, DecisionEngine.decide RegionMemory.fresh { zone := { is_safe := false } } =
      BotAction.escape_zone d p u :=
  zone_escape_dominates RegionMemory.fresh { zone := { is_safe := false } } (Or.inl rfl)

/- ── C9: weapon upgrade rule ─────────────────────────────────────── -/

/-- C9: is_upgrade_over is true against no weapon; against a weapon of
non-positive score it is true exactly when the candidate score is
positive (no division); against a positive score it is true exactly when
the relative improvement reaches 0.15. -/
theorem upgrade_rule_spec (w o : Weapon) :
    w.is_upgrade_over none = true ∧
    (o.score ≤ 0 → (w.is_upgrade_over (some o) = true ↔ 0 < w.score)) ∧
    (0 < o.score → (w.is_upgrade_over (some o) = true ↔
      (0.15:ℚ) ≤ (w.score - o.score) / o.score)) := by
  refine ⟨rfl, fun h => ?_, fun h => ?_⟩
  · unfold Weapon.is_upgrade_over
    dsimp only
    rw [if_pos h]
    exact decide_eq_true_iff
  · unfold Weapon.is_upgrade_over
    dsimp only
    rw [if_neg (not_le.mpr h)]
    exact decide_eq_true_iff

unseal Rat.inv Rat.mul Rat.add Rat.sub Rat.ofScientific in
/-- Witness for C9: a dps-2 common weapon upgrades over a dps-1 common
weapon (relative improvement 1.0 at least 0.15). -/
theorem upgrade_rule_spec_w :
    ({ name := "w", dps := 2 } : Weapon).is_upgrade_over (some { name := "o", dps := 1 }) =
      true :=
  ((upgrade_rule_spec { name := "w", dps := 2 } { name := "o", dps := 1 }).2.2
    (by decide)).mpr (by decide)

/- ── C7: the win probability regression pin ──────────────────────── -/

unseal Rat.inv Rat.mul Rat.add Rat.sub Rat.ofScientific in
/-- C7 counterexample: at the pinned configuration (own dps 20, hp 100,
vision 1.0, enemy dps 10, hp 40, distance 80) the win probability is
exactly 25/33, which is strictly above the upper bound 0.75 of the
claimed interval. -/
theorem win_prob_pin_cx :
    win_prob { weapon := some { name := "w", dps := 20 }, hp := 100 }
        { id := "e", hp := 40, distance := 80 } = 25/33 ∧
    ¬(win_prob { weapon := some { name := "w", dps := 20 }, hp := 100 }
        { id := "e", hp := 40, distance := 80 } ≤ 0.75) :=
  ⟨by decide, by decide⟩

/-- C7 (amended): with own weapon dps 20, own hp 100, vision modifier
1.0, against an enemy at distance 80 with hp 40 and dps 10, the win
probability lies in [0.55, 0.76] (its exact value is 25/33, about
0.7576, so the claimed upper bound 0.75 is exceeded). -/
theorem win_prob_pin_amended (gs : GameState) (e : Enemy) (w : Weapon)
    (hw : gs.weapon = some w) (hdps : w.dps = 20) (hhp : gs.hp = 100)
    (hv : gs.vision_modifier = 1) (hed : e.distance = 80) (hehp : e.hp = 40)
    (hedps : e.dps = 10) :
    (0.55:ℚ) ≤ win_prob gs e ∧ win_prob gs e ≤ 0.76 := by
  have hval : win_prob gs e = 25/33 := by
    unfold win_prob win_raw position_advantage
    rw [hw]
    dsimp only
    rw [hdps, hhp, hv, hed, hehp, hedps]
    norm_num [pymax, pymin]
  rw [hval]
  norm_num

/-- Witness for C7 at the literal pinned snapshot. -/
theorem win_prob_pin_amended_w :
    (0.55:ℚ) ≤ win_prob { weapon := some { name := "w", dps := 20 }, hp := 100 }
        { id := "e", hp := 40, distance := 80 } ∧
    win_prob { weapon := some { name := "w", dps := 20 }, hp := 100 }
        { id := "e", hp := 40, distance := 80 } ≤ 0.76 :=
  win_prob_pin_amended _ _ { name := "w", dps := 20 } rfl rfl rfl rfl rfl rfl rfl

/- ── C6: best_region ─────────────────────────────────────────────── -/

/-- C6: on a non-empty candidate list best_region always returns a
candidate: the first maximum-score member of the worthwhile subset
(score at least 0.5) when that subset is non-empty, otherwise the first
maximum-score member of the whole list; in both cases every earlier
member of the pool scores strictly less and every later member scores
at most the result. -/
theorem best_region_spec (m : RegionMemory) (cs : List String) (h : cs ≠ []) :
    ∃ r l1 l2, m.best_region cs = some r ∧ r ∈ cs ∧
      (if (cs.filter (fun c => m.is_worthwhile c)).isEmpty then cs
        else cs.filter (fun c => m.is_worthwhile c)) = l1 ++ r :: l2 ∧
      (∀ y ∈ l1, m.rvs y < m.rvs r) ∧ (∀ y ∈ l2, m.rvs y ≤ m.rvs r) := by
  have hbr : m.best_region cs =
      pyMaxBy m.rvs (if (cs.filter (fun c => m.is_worthwhile c)).isEmpty then cs
        else cs.filter (fun c => m.is_worthwhile c)) := rfl
  have hpoolne : (if (cs.filter (fun c => m.is_worthwhile c)).isEmpty then cs
      else cs.filter (fun c => m.is_worthwhile c)) ≠ [] := by
    split
    · exact h
    · next hne =>
        intro hc
        rw [hc] at hne
        simp at hne
  obtain ⟨x, l1, l2, hmax, heq, h1, h2⟩ := pyMaxBy_spec m.rvs _ hpoolne
  refine ⟨x, l1, l2, by rw [hbr, hmax], ?_, heq, h1, h2⟩
  have hx : x ∈ (if (cs.filter (fun c => m.is_worthwhile c)).isEmpty then cs
      else cs.filter (fun c => m.is_worthwhile c)) := by
    rw [heq]
    exact List.mem_append_right l1 (List.mem_cons_self x l2)
  revert hx
  split
  · exact id
  · intro hx
    exact (List.mem_filter.mp hx).1

unseal Rat.inv Rat.mul Rat.add Rat.sub Rat.ofScientific in
/-- Witness for C6 on a fresh memory and the candidate list x, y. -/
theorem best_region_spec_w :
    ∃ r l1 l2, RegionMemory.fresh.best_region ["x", "y"] = some r ∧ r ∈ ["x", "y"] ∧
      (if ((["x", "y"].filter (fun c => RegionMemory.fresh.is_worthwhile c)).isEmpty) then
          ["x", "y"]
        else ["x", "y"].filter (fun c => RegionMemory.fresh.is_worthwhile c)) = l1 ++ r :: l2 ∧
      (∀ y ∈ l1, RegionMemory.fresh.rvs y < RegionMemory.fresh.rvs r) ∧
      (∀ y ∈ l2, RegionMemory.fresh.rvs y ≤ RegionMemory.fresh.rvs r) :=
  best_region_spec RegionMemory.fresh ["x", "y"] (by decide)

/- ── Shape of the fall-through steps of decide ───────────────────── -/

theorem decide_loot_shape (gs : GameState) :
    (∃ i, decide_loot gs = BotAction.pick_loot i) ∨ decide_loot gs = BotAction.patrol := by
  unfold decide_loot
  cases hpl : pick_loot gs
  · exact Or.inr rfl
  · next l => exact Or.inl ⟨l.id, rfl⟩

theorem decide_explore_shape (m : RegionMemory) (gs : GameState) :
    (∃ r, decide_explore m gs = BotAction.move_to_region r) ∨
    (∃ i, decide_explore m gs = BotAction.pick_loot i) ∨
    decide_explore m gs = BotAction.patrol := by
  unfold decide_explore
  cases hcr : choose_region m gs
  · rcases decide_loot_shape gs with ⟨i, hi⟩ | hp
    · exact Or.inr (Or.inl ⟨i, hi⟩)
    · exact Or.inr (Or.inr hp)
  · next r =>
    dsimp only
    by_cases hc : r ≠ "" ∧ r ≠ gs.current_region
    · rw [if_pos hc]
      exact Or.inl ⟨r, rfl⟩
    · rw [if_neg hc]
      rcases decide_loot_shape gs with ⟨i, hi⟩ | hp
      · exact Or.inr (Or.inl ⟨i, hi⟩)
      · exact Or.inr (Or.inr hp)

theorem decide_combat_shape (m : RegionMemory) (gs : GameState) (t : Option Enemy) :
    (∃ tid, decide_combat m gs t = BotAction.attack tid) ∨
    (∃ r, decide_combat m gs t = BotAction.move_to_region r) ∨
    (∃ i, decide_combat m gs t = BotAction.pick_loot i) ∨
    decide_combat m gs t = BotAction.patrol := by
  cases t with
  | none =>
    rcases decide_explore_shape m gs with ⟨r, hr⟩ | ⟨i, hi⟩ | hp
    · exact Or.inr (Or.inl ⟨r, hr⟩)
    · exact Or.inr (Or.inr (Or.inl ⟨i, hi⟩))
    · exact Or.inr (Or.inr (Or.inr hp))
  | some e =>
    unfold decide_combat
    dsimp only
    by_cases hz : e.in_zone = true
    · rw [if_pos hz]
      by_cases hk : kill_time gs e ≤ ZONE_CHASE_MAX_SEC ∧ ZONE_ESCAPE_MIN ≤ self_escape_prob gs
      · rw [if_pos hk]
        exact Or.inl ⟨e.id, rfl⟩
      · rw [if_neg hk]
        rcases decide_explore_shape m gs with ⟨r, hr⟩ | ⟨i, hi⟩ | hp
        · exact Or.inr (Or.inl ⟨r, hr⟩)
        · exact Or.inr (Or.inr (Or.inl ⟨i, hi⟩))
        · exact Or.inr (Or.inr (Or.inr hp))
    · rw [if_neg hz]
      exact Or.inl ⟨e.id, rfl⟩

theorem decide_rest_shape (m : RegionMemory) (gs : GameState) :
    (∃ s, decide_rest m gs = BotAction.use_item s) ∨
    (∃ tid, decide_rest m gs = BotAction.attack tid) ∨
    (∃ r, decide_rest m gs = BotAction.move_to_region r) ∨
    (∃ i, decide_rest m gs = BotAction.pick_loot i) ∨
    decide_rest m gs = BotAction.patrol := by
  unfold decide_rest
  by_cases hh : gs.hp_pct < HP_USE_HEAL ∧ gs.best_heal.isSome
  · rw [if_pos hh]
    exact Or.inl ⟨gs.best_heal.getD "", rfl⟩
  · rw [if_neg hh]
    rcases decide_combat_shape m gs (select_target gs) with ⟨tid, h⟩ | ⟨r, h⟩ | ⟨i, h⟩ | h
    · exact Or.inr (Or.inl ⟨tid, h⟩)
    · exact Or.inr (Or.inr (Or.inl ⟨r, h⟩))
    · exact Or.inr (Or.inr (Or.inr (Or.inl ⟨i, h⟩)))
    · exact Or.inr (Or.inr (Or.inr (Or.inr h)))

theorem decide_rest_ne_move_to_weapon (m : RegionMemory) (gs : GameState) (s : String) :
    decide_rest m gs ≠ BotAction.move_to_weapon s := by
  rcases decide_rest_shape m gs with ⟨a, h⟩ | ⟨a, h⟩ | ⟨a, h⟩ | ⟨a, h⟩ | h <;>
    rw [h] <;> intro hc <;> cases hc

/- ── C8: the weapon hunt rule ────────────────────────────────────── -/

/-- C8: when zone escape and critical heal do not fire and a weapon is
nearby, decide returns move_to_weapon for the highest-scoring nearby
weapon (first on ties) exactly when that weapon upgrades over the held
weapon, the path-safety step value is at least 0.65 and the imminent
zone-shrink guard (distance < 40 and shrink timer < 8) does not hold. -/
theorem weapon_hunt_spec (m : RegionMemory) (gs : GameState)
    (hz : zone_critical gs = false)
    (hh : ¬(gs.hp_pct < 35 ∧ gs.best_heal.isSome))
    (hw : gs.weapons_nearby ≠ []) :
    ∃ bw, best_nearby_weapon gs = some bw ∧ bw ∈ gs.weapons_nearby ∧
      (∀ u ∈ gs.weapons_nearby, u.score ≤ bw.score) ∧
      (DecisionEngine.decide m gs = BotAction.move_to_weapon bw.name ↔
        (bw.is_upgrade_over gs.weapon = true ∧ (0.65:ℚ) ≤ safe_path_prob gs ∧
          ¬(gs.zone.distance < 40 ∧ gs.zone.shrink_timer < 8))) := by
  have hbw : best_nearby_weapon gs = pyMaxBy Weapon.score gs.weapons_nearby := by
    unfold best_nearby_weapon
    rw [if_neg]
    simpa using hw
  obtain ⟨bw, l1, l2, hmax, heq, h1, h2⟩ := pyMaxBy_spec Weapon.score gs.weapons_nearby hw
  have hsel : best_nearby_weapon gs = some bw := by rw [hbw, hmax]
  have hmem : bw ∈ gs.weapons_nearby := by
    rw [heq]
    exact List.mem_append_right _ (List.mem_cons_self _ _)
  have hall : ∀ u ∈ gs.weapons_nearby, u.score ≤ bw.score := by
    intro u hu
    rw [heq] at hu
    rcases List.mem_append.mp hu with hu | hu
    · exact le_of_lt (h1 u hu)
    · rcases List.mem_cons.mp hu with rfl | hu
      · exact le_rfl
      · exact h2 u hu
  have hz' : ¬(zone_critical gs = true) := by rw [hz]; simp
  have hh' : ¬(gs.hp_pct < HP_DISENGAGE ∧ gs.best_heal.isSome) := hh
  have hde : DecisionEngine.decide m gs =
      (if bw.is_upgrade_over gs.weapon = true ∧ SAFE_PATH_MIN ≤ safe_path_prob gs ∧
          weapon_in_zone_trajectory gs = false then BotAction.move_to_weapon bw.name
        else decide_rest m gs) := by
    unfold DecisionEngine.decide
    rw [if_neg hz', if_neg hh', hsel]
  refine ⟨bw, hsel, hmem, hall, ?_⟩
  rw [hde]
  constructor
  · intro h
    by_cases hg : bw.is_upgrade_over gs.weapon = true ∧ SAFE_PATH_MIN ≤ safe_path_prob gs ∧
        weapon_in_zone_trajectory gs = false
    · refine ⟨hg.1, hg.2.1, ?_⟩
      have h3 := hg.2.2
      unfold weapon_in_zone_trajectory at h3
      simpa [decide_eq_false_iff_not] using h3
    · rw [if_neg hg] at h
      exact absurd h (decide_rest_ne_move_to_weapon m gs _)
  · intro hcond
    have hg : bw.is_upgrade_over gs.weapon = true ∧ SAFE_PATH_MIN ≤ safe_path_prob gs ∧
        weapon_in_zone_trajectory gs = false := by
      refine ⟨hcond.1, hcond.2.1, ?_⟩
      unfold weapon_in_zone_trajectory
      simpa [decide_eq_false_iff_not] using hcond.2.2
    rw [if_pos hg]

/-- Concrete snapshot for the C8 witness: unarmed, far from the zone,
one rifle nearby. -/
def gs_weapon_hunt : GameState :=
  { zone := { distance := 250 }, weapons_nearby := [{ name := "rifle", dps := 10 }] }

unseal Rat.inv Rat.mul Rat.add Rat.sub Rat.ofScientific in
/-- Witness for C8 at gs_weapon_hunt. -/
theorem weapon_hunt_spec_w :
    ∃ bw, best_nearby_weapon gs_weapon_hunt = some bw ∧ bw ∈ gs_weapon_hunt.weapons_nearby ∧
      (∀ u ∈ gs_weapon_hunt.weapons_nearby, u.score ≤ bw.score) ∧
      (DecisionEngine.decide RegionMemory.fresh gs_weapon_hunt =
          BotAction.move_to_weapon bw.name ↔
        (bw.is_upgrade_over gs_weapon_hunt.weapon = true ∧
          (0.65:ℚ) ≤ safe_path_prob gs_weapon_hunt ∧
          ¬(gs_weapon_hunt.zone.distance < 40 ∧ gs_weapon_hunt.zone.shrink_timer < 8))) :=
  weapon_hunt_spec RegionMemory.fresh gs_weapon_hunt (by decide) (by decide) (by decide)

/- ── Target selection: fold characterization ─────────────────────── -/

theorem select_step_in_zone (gs : GameState) (acc : Option Enemy × ℚ) (e : Enemy)
    (h : e.in_zone = true) : select_step gs acc e = acc := by
  simp [select_step, h]

theorem select_step_inelig (gs : GameState) (acc : Option Enemy × ℚ) (e : Enemy)
    (h1 : e.in_zone = false)
    (h2 : ¬(WIN_PROB_ENGAGE ≤ win_prob gs e ∧ enemy_escape_prob e ≤ ESCAPE_PROB_MAX)) :
    select_step gs acc e = acc := by
  simp [select_step, h1, h2]

theorem select_step_elig_lt (gs : GameState) (acc : Option Enemy × ℚ) (e : Enemy)
    (h1 : e.in_zone = false)
    (h2 : WIN_PROB_ENGAGE ≤ win_prob gs e ∧ enemy_escape_prob e ≤ ESCAPE_PROB_MAX)
    (h3 : acc.2 < composite_score gs e) :
    select_step gs acc e = (some e, composite_score gs e) := by
  simp [select_step, h1, h2, h3]

theorem select_step_elig_ge (gs : GameState) (acc : Option Enemy × ℚ) (e : Enemy)
    (h1 : e.in_zone = false)
    (h2 : WIN_PROB_ENGAGE ≤ win_prob gs e ∧ enemy_escape_prob e ≤ ESCAPE_PROB_MAX)
    (h3 : ¬(acc.2 < composite_score gs e)) :
    select_step gs acc e = acc := by
  simp [select_step, h1, h2, h3]

/-- Folding the _select_target loop body from an eligible running best b
yields an eligible enemy that dominates b and every eligible element of
the remaining list; when the best changes it is the first strict
improvement. -/
theorem select_fold_from_some (gs : GameState) :
    ∀ (l : List Enemy) (b : Enemy), eligible gs b →
      ∃ r, l.foldl (select_step gs) (some b, composite_score gs b) =
          (some r, composite_score gs r) ∧ eligible gs r ∧
        ((r = b ∧ ∀ y ∈ l, eligible gs y → composite_score gs y ≤ composite_score gs b) ∨
         (∃ l1 l2, l = l1 ++ r :: l2 ∧ composite_score gs b < composite_score gs r ∧
           (∀ y ∈ l1, eligible gs y → composite_score gs y < composite_score gs r) ∧
           (∀ y ∈ l2, eligible gs y → composite_score gs y ≤ composite_score gs r)))
  | [], b, hb => ⟨b, rfl, hb, Or.inl ⟨rfl, by simp⟩⟩
  | e :: t, b, hb => by
    rw [List.foldl_cons]
    by_cases hez : e.in_zone = true
    · rw [select_step_in_zone gs _ e hez]
      obtain ⟨r, hr, hel, hcase⟩ := select_fold_from_some gs t b hb
      refine ⟨r, hr, hel, ?_⟩
      rcases hcase with ⟨req, hall⟩ | ⟨l1, l2, heq, hlt, hA, hB⟩
      · refine Or.inl ⟨req, ?_⟩
        intro y hy hely
        rcases List.mem_cons.mp hy with rfl | hy
        · exact absurd hely.1 (by simp [hez])
        · exact hall y hy hely
      · refine Or.inr ⟨e :: l1, l2, by simp [heq], hlt, ?_, hB⟩
        intro y hy hely
        rcases List.mem_cons.mp hy with rfl | hy
        · exact absurd hely.1 (by simp [hez])
        · exact hA y hy hely
    · have hez' : e.in_zone = false := by revert hez; cases e.in_zone <;> simp
      by_cases helig : WIN_PROB_ENGAGE ≤ win_prob gs e ∧ enemy_escape_prob e ≤ ESCAPE_PROB_MAX
      · have hee : eligible gs e := ⟨hez', helig.1, helig.2⟩
        by_cases hcmp : composite_score gs b < composite_score gs e
        · rw [select_step_elig_lt gs _ e hez' helig hcmp]
          obtain ⟨r, hr, hel, hcase⟩ := select_fold_from_some gs t e hee
          refine ⟨r, hr, hel, Or.inr ?_⟩
          rcases hcase with ⟨req, hall⟩ | ⟨l1, l2, heq, hlt, hA, hB⟩
          · subst req
            exact ⟨[], t, rfl, hcmp, by simp, hall⟩
          · refine ⟨e :: l1, l2, by simp [heq], lt_trans hcmp hlt, ?_, hB⟩
            intro y hy hely
            rcases List.mem_cons.mp hy with rfl | hy
            · exact hlt
            · exact hA y hy hely
        · rw [select_step_elig_ge gs _ e hez' helig hcmp]
          obtain ⟨r, hr, hel, hcase⟩ := select_fold_from_some gs t b hb
          refine ⟨r, hr, hel, ?_⟩
          rcases hcase with ⟨req, hall⟩ | ⟨l1, l2, heq, hlt, hA, hB⟩
          · refine Or.inl ⟨req, ?_⟩
            intro y hy hely
            rcases List.mem_cons.mp hy with rfl | hy
            · exact not_lt.mp hcmp
            · exact hall y hy hely
          · refine Or.inr ⟨e :: l1, l2, by simp [heq], hlt, ?_, hB⟩
            intro y hy hely
            rcases List.mem_cons.mp hy with rfl | hy
            · exact lt_of_le_of_lt (not_lt.mp hcmp) hlt
            · exact hA y hy hely
      · rw [select_step_inelig gs _ e hez' helig]
        obtain ⟨r, hr, hel, hcase⟩ := select_fold_from_some gs t b hb
        refine ⟨r, hr, hel, ?_⟩
        rcases hcase with ⟨req, hall⟩ | ⟨l1, l2, heq, hlt, hA, hB⟩
        · refine Or.inl ⟨req, ?_⟩
          intro y hy hely
          rcases List.mem_cons.mp hy with rfl | hy
          · exact absurd ⟨hely.2.1, hely.2.2⟩ helig
          · exact hall y hy hely
        · refine Or.inr ⟨e :: l1, l2, by simp [heq], hlt, ?_, hB⟩
          intro y hy hely
          rcases List.mem_cons.mp hy with rfl | hy
          · exact absurd ⟨hely.2.1, hely.2.2⟩ helig
          · exact hA y hy hely

/-- Folding the _select_target loop body from the initial accumulator
(None, 0.0): either no eligible enemy has positive composite score and
the accumulator never moves, or the result is the first eligible enemy
attaining the maximal positive composite score. -/
theorem select_fold_from_none (gs : GameState) :
    ∀ l : List Enemy,
      (l.foldl (select_step gs) (none, 0) = (none, 0) ∧
        ∀ y ∈ l, eligible gs y → composite_score gs y ≤ 0) ∨
      (∃ r l1 l2, l.foldl (select_step gs) (none, 0) = (some r, composite_score gs r) ∧
        eligible gs r ∧ 0 < composite_score gs r ∧ l = l1 ++ r :: l2 ∧
        (∀ y ∈ l1, eligible gs y → composite_score gs y < composite_score gs r) ∧
        (∀ y ∈ l2, eligible gs y → composite_score gs y ≤ composite_score gs r))
  | [] => Or.inl ⟨rfl, by simp⟩
  | e :: t => by
    rw [List.foldl_cons]
    by_cases hez : e.in_zone = true
    · rw [select_step_in_zone gs _ e hez]
      rcases select_fold_from_none gs t with ⟨hf, hall⟩ | ⟨r, l1, l2, hf, hel, hpos, heq, hA, hB⟩
      · refine Or.inl ⟨hf, ?_⟩
        intro y hy hely
        rcases List.mem_cons.mp hy with rfl | hy
        · exact absurd hely.1 (by simp [hez])
        · exact hall y hy hely
      · refine Or.inr ⟨r, e :: l1, l2, hf, hel, hpos, by simp [heq], ?_, hB⟩
        intro y hy hely
        rcases List.mem_cons.mp hy with rfl | hy
        · exact absurd hely.1 (by simp [hez])
        · exact hA y hy hely
    · have hez' : e.in_zone = false := by revert hez; cases e.in_zone <;> simp
      by_cases helig : WIN_PROB_ENGAGE ≤ win_prob gs e ∧ enemy_escape_prob e ≤ ESCAPE_PROB_MAX
      · have hee : eligible gs e := ⟨hez', helig.1, helig.2⟩
        by_cases hpos : (0:ℚ) < composite_score gs e
        · rw [select_step_elig_lt gs _ e hez' helig hpos]
          obtain ⟨r, hr, hel, hcase⟩ := select_fold_from_some gs t e hee
          rcases hcase with ⟨req, hall⟩ | ⟨l1, l2, heq, hlt, hA, hB⟩
          · subst req
            exact Or.inr ⟨r, [], t, hr, hel, hpos, rfl, by simp, hall⟩
          · refine Or.inr ⟨r, e :: l1, l2, hr, hel, lt_trans hpos hlt, by simp [heq], ?_, hB⟩
            intro y hy hely
            rcases List.mem_cons.mp hy with rfl | hy
            · exact hlt
            · exact hA y hy hely
        · rw [select_step_elig_ge gs _ e hez' helig hpos]
          rcases select_fold_from_none gs t with ⟨hf, hall⟩ |
            ⟨r, l1, l2, hf, hel, hpos2, heq, hA, hB⟩
          · refine Or.inl ⟨hf, ?_⟩
            intro y hy hely
            rcases List.mem_cons.mp hy with rfl | hy
            · exact not_lt.mp hpos
            · exact hall y hy hely
          · refine Or.inr ⟨r, e :: l1, l2, hf, hel, hpos2, by simp [heq], ?_, hB⟩
            intro y hy hely
            rcases List.mem_cons.mp hy with rfl | hy
            · exact lt_of_le_of_lt (not_lt.mp hpos) hpos2
            · exact hA y hy hely
      · rw [select_step_inelig gs _ e hez' helig]
        rcases select_fold_from_none gs t with ⟨hf, hall⟩ |
          ⟨r, l1, l2, hf, hel, hpos2, heq, hA, hB⟩
        · refine Or.inl ⟨hf, ?_⟩
          intro y hy hely
          rcases List.mem_cons.mp hy with rfl | hy
          · exact absurd ⟨hely.2.1, hely.2.2⟩ helig
          · exact hall y hy hely
        · refine Or.inr ⟨r, e :: l1, l2, hf, hel, hpos2, by simp [heq], ?_, hB⟩
          intro y hy hely
          rcases List.mem_cons.mp hy with rfl | hy
          · exact absurd ⟨hely.2.1, hely.2.2⟩ helig
          · exact hA y hy hely

/-- A selected target is eligible (in particular outside the zone), has
positive composite score, and is the first maximizer of the composite
score among the eligible enemies. -/
theorem select_target_some_spec (gs : GameState) (e : Enemy)
    (h : select_target gs = some e) :
    eligible gs e ∧ 0 < composite_score gs e ∧
      ∃ l1 l2, gs.enemies = l1 ++ e :: l2 ∧
        (∀ y ∈ l1, eligible gs y → composite_score gs y < composite_score gs e) ∧
        (∀ y ∈ l2, eligible gs y → composite_score gs y ≤ composite_score gs e) := by
  unfold select_target at h
  rcases select_fold_from_none gs gs.enemies with ⟨hf, _⟩ |
    ⟨r, l1, l2, hf, hel, hpos, heq, hA, hB⟩
  · rw [hf] at h
    cases h
  · rw [hf] at h
    have : r = e := by simpa using h
    subst this
    exact ⟨hel, hpos, l1, l2, heq, hA, hB⟩

/-- When some eligible enemy has positive composite score, a target is
selected. -/
theorem select_target_isSome (gs : GameState)
    (h : ∃ e ∈ gs.enemies, eligible gs e ∧ 0 < composite_score gs e) :
    ∃ e, select_target gs = some e := by
  obtain ⟨e, hmem, hel, hpos⟩ := h
  unfold select_target
  rcases select_fold_from_none gs gs.enemies with ⟨hf, hall⟩ |
    ⟨r, l1, l2, hf, _, _, _, _, _⟩
  · exact absurd hpos (not_lt.mpr (hall e hmem hel))
  · rw [hf]
    exact ⟨r, rfl⟩

/- ── C3: target selection ────────────────────────────────────────── -/

/-- Concrete snapshot for the C3 counterexample: a single eligible enemy
at full health (composite score exactly 0). -/
def gs_full_hp : GameState :=
  { weapon := some { name := "w", dps := 100 }
    hp := 100
    enemies := [{ id := "e1", hp := 100, max_hp := 100, dps := 10, distance := 50 }] }

unseal Rat.inv Rat.mul Rat.add Rat.sub Rat.ofScientific in
/-- C3 counterexample: the listed enemy is eligible (out of zone,
win_prob 10/11 at least 0.60, escape_prob 0.35 at most 0.40), yet
_select_target returns no target, because the full-health enemy has
composite score 0, which never exceeds the initial best score 0.0. -/
theorem select_target_full_hp_cx :
    eligible gs_full_hp { id := "e1", hp := 100, max_hp := 100, dps := 10, distance := 50 } ∧
    ({ id := "e1", hp := 100, max_hp := 100, dps := 10, distance := 50 } : Enemy) ∈
      gs_full_hp.enemies ∧
    select_target gs_full_hp = none :=
  ⟨by decide, by decide, by decide⟩

/-- C3 (amended): target selection considers only enemies with in_zone
false, win_prob at least 0.60 and escape_prob at most 0.40; any returned
target is such an enemy with positive composite score
win_prob * (1 - hp_pct / 100) / max(distance, 1), maximal among the
eligible enemies, first on ties; and a target is returned whenever some
eligible enemy has positive composite score (an eligible enemy whose
composite score is 0, e.g. at full health, is never returned). -/
theorem select_target_amended (gs : GameState) :
    (∀ e, select_target gs = some e → eligible gs e ∧ 0 < composite_score gs e ∧
      ∃ l1 l2, gs.enemies = l1 ++ e :: l2 ∧
        (∀ y ∈ l1, eligible gs y → composite_score gs y < composite_score gs e) ∧
        (∀ y ∈ l2, eligible gs y → composite_score gs y ≤ composite_score gs e)) ∧
    ((∃ e ∈ gs.enemies, eligible gs e ∧ 0 < composite_score gs e) →
      ∃ e, select_target gs = some e) :=
  ⟨fun e he => select_target_some_spec gs e he, fun h => select_target_isSome gs h⟩

/-- Concrete snapshot for the C3 witness: one eligible wounded enemy. -/
def gs_select : GameState :=
  { weapon := some { name := "w", dps := 20 }
    hp := 100
    enemies := [{ id := "a", hp := 20, max_hp := 100, dps := 10, distance := 30 }] }

unseal Rat.inv Rat.mul Rat.add Rat.sub Rat.ofScientific in
/-- Witness for C3: the eligible wounded enemy in gs_select has positive
composite score, so a target is selected. -/
theorem select_target_amended_w :
    ∃ e, select_target gs_select = some e :=
  (select_target_amended gs_select).2
    ⟨{ id := "a", hp := 20, max_hp := 100, dps := 10, distance := 30 },
      by decide, by decide, by decide⟩

/- ── C10: selected targets are never inside the zone ─────────────── -/

theorem decide_explore_ne_attack (m : RegionMemory) (gs : GameState) (tid : String) :
    decide_explore m gs ≠ BotAction.attack tid := by
  rcases decide_explore_shape m gs with ⟨r, h⟩ | ⟨i, h⟩ | h <;> rw [h] <;> intro hc <;> cases hc

/-- If the fall-through steps 4 to 8 return an attack, it is on a
selected target, which is outside the zone. -/
theorem decide_rest_attack (m : RegionMemory) (gs : GameState) (tid : String)
    (h : decide_rest m gs = BotAction.attack tid) :
    ∃ e, select_target gs = some e ∧ tid = e.id ∧ e.in_zone = false := by
  unfold decide_rest at h
  by_cases hh : gs.hp_pct < HP_USE_HEAL ∧ gs.best_heal.isSome
  · rw [if_pos hh] at h
    simp [heal_action] at h
  · rw [if_neg hh] at h
    rcases hsel : select_target gs with _ | t
    · rw [hsel] at h
      exact absurd h (decide_explore_ne_attack m gs tid)
    · rw [hsel] at h
      have hz0 : t.in_zone = false := (select_target_some_spec gs t hsel).1.1
      unfold decide_combat at h
      dsimp only at h
      rw [if_neg (by simp [hz0])] at h
      refine ⟨t, rfl, ?_, hz0⟩
      cases h
      rfl

/-- C10: every selected target has in_zone false; decide never returns
an attack whose target is inside the danger zone; and because the
selected target is always outside the zone, the zone-chase commit test
(kill time at most 3.0 and self escape probability at least 0.75) is
never reached: whenever the earlier rules do not fire and a target is
selected, it is attacked through the unconditional out-of-zone branch. -/
theorem no_zone_target_attack (m : RegionMemory) (gs : GameState) :
    (∀ e, select_target gs = some e → e.in_zone = false) ∧
    (∀ tid, DecisionEngine.decide m gs = BotAction.attack tid →
      ∃ e, select_target gs = some e ∧ tid = e.id ∧ e.in_zone = false) ∧
    (∀ e, zone_critical gs = false →
      ¬(gs.hp_pct < 35 ∧ gs.best_heal.isSome) →
      (∀ bw, best_nearby_weapon gs = some bw →
        ¬(bw.is_upgrade_over gs.weapon = true ∧ SAFE_PATH_MIN ≤ safe_path_prob gs ∧
          weapon_in_zone_trajectory gs = false)) →
      ¬(gs.hp_pct < 60 ∧ gs.best_heal.isSome) →
      select_target gs = some e → DecisionEngine.decide m gs = BotAction.attack e.id) := by
  refine ⟨fun e he => (select_target_some_spec gs e he).1.1, fun tid h => ?_, ?_⟩
  · unfold DecisionEngine.decide at h
    by_cases hz : zone_critical gs = true
    · rw [if_pos hz] at h
      simp [zone_escape_action] at h
    · rw [if_neg hz] at h
      by_cases hh : gs.hp_pct < HP_DISENGAGE ∧ gs.best_heal.isSome
      · rw [if_pos hh] at h
        simp [heal_action] at h
      · rw [if_neg hh] at h
        rcases hbw : best_nearby_weapon gs with _ | bw
        · rw [hbw] at h
          exact decide_rest_attack m gs tid h
        · rw [hbw] at h
          dsimp only at h
          by_cases hg : bw.is_upgrade_over gs.weapon = true ∧
              SAFE_PATH_MIN ≤ safe_path_prob gs ∧ weapon_in_zone_trajectory gs = false
          · rw [if_pos hg] at h
            cases h
          · rw [if_neg hg] at h
            exact decide_rest_attack m gs tid h
  · intro e hz hh hwguard hh2 hsel
    have hz0 : e.in_zone = false := (select_target_some_spec gs e hsel).1.1
    have hrest : decide_rest m gs = BotAction.attack e.id := by
      unfold decide_rest
      rw [if_neg (show ¬(gs.hp_pct < HP_USE_HEAL ∧ gs.best_heal.isSome = true) from hh2), hsel]
      unfold decide_combat
      dsimp only
      rw [if_neg (by simp [hz0])]
    unfold DecisionEngine.decide
    rw [if_neg (by simp [hz]),
      if_neg (show ¬(gs.hp_pct < HP_DISENGAGE ∧ gs.best_heal.isSome = true) from hh)]
    rcases hbw : best_nearby_weapon gs with _ | bw
    · exact hrest
    · dsimp only
      rw [if_neg (hwguard bw hbw)]
      exact hrest

/-- Concrete snapshot for the C10 witness. -/
def gs_attack : GameState :=
  { weapon := some { name := "w", dps := 20 }
    hp := 100
    enemies := [{ id := "b", hp := 20, max_hp := 100, dps := 10, distance := 30 }] }

unseal Rat.inv Rat.mul Rat.add Rat.sub Rat.ofScientific in
/-- Witness for C10: with no earlier rule firing, the selected
out-of-zone enemy is attacked directly. -/
theorem no_zone_target_attack_w :
    DecisionEngine.decide RegionMemory.fresh gs_attack = BotAction.attack "b" :=
  (no_zone_target_attack RegionMemory.fresh gs_attack).2.2
    { id := "b", hp := 20, max_hp := 100, dps := 10, distance := 30 }
    (by decide) (by decide)
    (by
      intro bw hbw
      rw [show best_nearby_weapon gs_attack = none from by decide] at hbw
      cases hbw)
    (by decide) (by decide)

/- ── C5: totality of decide ──────────────────────────────────────── -/

/-- The guard of every rule before the patrol fallback fails: zone
escape, critical heal, weapon hunt, normal heal, target selection,
exploration to a different region, and loot pickup. -/
def no_rule_fires (m : RegionMemory) (gs : GameState) : Prop :=
  zone_critical gs = false ∧
  ¬(gs.hp_pct < HP_DISENGAGE ∧ gs.best_heal.isSome = true) ∧
  (∀ bw, best_nearby_weapon gs = some bw →
    ¬(bw.is_upgrade_over gs.weapon = true ∧ SAFE_PATH_MIN ≤ safe_path_prob gs ∧
      weapon_in_zone_trajectory gs = false)) ∧
  ¬(gs.hp_pct < HP_USE_HEAL ∧ gs.best_heal.isSome = true) ∧
  select_target gs = none ∧
  (∀ r, choose_region m gs = some r → ¬(r ≠ "" ∧ r ≠ gs.current_region)) ∧
  pick_loot gs = none

theorem select_foldE_eq (gs : GameState) :
    ∀ (l : List Enemy) (acc : Option Enemy × ℚ),
      (∀ e ∈ l, e.in_zone = false → win_raw gs e + 1 ≠ 0) →
      select_foldE gs l acc = some (l.foldl (select_step gs) acc)
  | [], _, _ => rfl
  | e :: t, acc, h => by
    rw [List.foldl_cons]
    unfold select_foldE
    by_cases hez : e.in_zone = true
    · rw [if_pos hez, select_step_in_zone gs acc e hez]
      exact select_foldE_eq gs t acc (fun x hx => h x (List.mem_cons_of_mem e hx))
    · have hez' : e.in_zone = false := by revert hez; cases e.in_zone <;> simp
      rw [if_neg hez, if_neg (h e (List.mem_cons_self e t) hez')]
      exact select_foldE_eq gs t _ (fun x hx => h x (List.mem_cons_of_mem e hx))

theorem select_targetE_eq (gs : GameState)
    (h : ∀ e ∈ gs.enemies, e.in_zone = false → win_raw gs e + 1 ≠ 0) :
    select_targetE gs = some (select_target gs) := by
  unfold select_targetE select_target
  rw [select_foldE_eq gs gs.enemies (none, 0) h]
  rfl

/-- C5 (amended): decide returns exactly one action on every snapshot on
which no considered enemy drives the win-probability ratio to -1 (in
particular on every snapshot with empty enemies, loot and weapons lists
and no held weapon), and it returns patrol when no other rule fires; but
it is not total on all snapshots: at the counterexample input the Python
code raises ZeroDivisionError, reflected here by decideE = none. -/
theorem decide_total_amended (m : RegionMemory) (gs : GameState) :
    ((∀ e ∈ gs.enemies, e.in_zone = false → win_raw gs e + 1 ≠ 0) →
      decideE m gs = some (DecisionEngine.decide m gs)) ∧
    (no_rule_fires m gs → DecisionEngine.decide m gs = BotAction.patrol) := by
  constructor
  · intro h
    unfold decideE DecisionEngine.decide
    by_cases h1 : zone_critical gs = true
    · rw [if_pos h1, if_pos h1]
    · rw [if_neg h1, if_neg h1]
      by_cases h2 : gs.hp_pct < HP_DISENGAGE ∧ gs.best_heal.isSome = true
      · rw [if_pos h2, if_pos h2]
      · rw [if_neg h2, if_neg h2]
        have hrest : decide_restE m gs = some (decide_rest m gs) := by
          unfold decide_restE decide_rest
          by_cases h3 : gs.hp_pct < HP_USE_HEAL ∧ gs.best_heal.isSome = true
          · rw [if_pos h3, if_pos h3]
          · rw [if_neg h3, if_neg h3, select_targetE_eq gs h]
            rfl
        rcases hbw : best_nearby_weapon gs with _ | bw
        · exact hrest
        · dsimp only
          by_cases h4 : bw.is_upgrade_over gs.weapon = true ∧
              SAFE_PATH_MIN ≤ safe_path_prob gs ∧ weapon_in_zone_trajectory gs = false
          · rw [if_pos h4, if_pos h4]
          · rw [if_neg h4, if_neg h4]
            exact hrest
  · rintro ⟨h1, h2, h3, h4, h5, h6, h7⟩
    have hrest : decide_rest m gs = BotAction.patrol := by
      unfold decide_rest
      rw [if_neg h4, h5]
      show decide_explore m gs = BotAction.patrol
      unfold decide_explore
      rcases hcr : choose_region m gs with _ | r
      · show decide_loot gs = BotAction.patrol
        unfold decide_loot
        rw [h7]
      · dsimp only
        rw [if_neg (h6 r hcr)]
        show decide_loot gs = BotAction.patrol
        unfold decide_loot
        rw [h7]
    unfold DecisionEngine.decide
    rw [if_neg (show ¬(zone_critical gs = true) by simp [h1]), if_neg h2]
    rcases hbw : best_nearby_weapon gs with _ | bw
    · exact hrest
    · dsimp only
      rw [if_neg (h3 bw hbw)]
      exact hrest

/-- Concrete snapshot for the C5 counterexample: own weapon dps -10 and
hp 1 give win-probability ratio exactly -1 against the listed enemy, so
raw / (raw + 1) divides by zero. -/
def gs_crash : GameState :=
  { weapon := some { name := "cursed", dps := -10 }
    hp := 1
    enemies := [{ id := "e", hp := 1, max_hp := 100, dps := 10, distance := 50 }] }

unseal Rat.inv Rat.mul Rat.add Rat.sub Rat.ofScientific in
/-- C5 counterexample: at gs_crash the considered enemy makes the win
probability ratio equal -1, and the exception-aware model of decide
returns none: the Python decide raises ZeroDivisionError on this
snapshot instead of returning an action. -/
theorem decide_division_crash_cx :
    win_raw gs_crash { id := "e", hp := 1, max_hp := 100, dps := 10, distance := 50 } + 1 = 0 ∧
    decideE RegionMemory.fresh gs_crash = none :=
  ⟨by decide, by decide⟩

/-- Concrete snapshot for the C5 witness: empty lists, no weapon, agent
already in the best default region. -/
def gs_patrol : GameState := { current_region := "central" }

unseal Rat.inv Rat.mul Rat.add Rat.sub Rat.ofScientific in
/-- Witness for C5 at gs_patrol: no rule fires and decide evaluates to
patrol, in agreement with the exception-aware model. -/
theorem decide_total_amended_w :
    decideE RegionMemory.fresh gs_patrol =
      some (DecisionEngine.decide RegionMemory.fresh gs_patrol) ∧
    DecisionEngine.decide RegionMemory.fresh gs_patrol = BotAction.patrol := by
  constructor
  · exact (decide_total_amended RegionMemory.fresh gs_patrol).1 (by decide)
  · refine (decide_total_amended RegionMemory.fresh gs_patrol).2
      ⟨by decide, by decide, ?_, by decide, by decide, ?_, by decide⟩
    · intro bw hbw
      rw [show best_nearby_weapon gs_patrol = none from by decide] at hbw
      cases hbw
    · intro r hr
      rw [show choose_region RegionMemory.fresh gs_patrol = some "central" from by decide] at hr
      cases hr
      decide
